import Mathlib

/-!
Verification of the timetable normalization and grid-assembly engine of
`src/pages/TimetableView.tsx`: row parsing, entry filtering, day/time
grouping, grid-cell rendering states, timetable loading, and the
branch/division query-parameter handlers.

Raw rows are modelled as `List (Option String)`: a cell may be absent
(row shorter than 6) or hold `none` (an undefined hole); both read as the
empty string, mirroring the source's `row[i] || ''`.
-/

namespace TimetableView

/-- Structure `StoredTimetable` from the source: one stored timetable record. -/
structure StoredTimetable where
  filename : String
  branch : String
  division : String
  year : String
  generatedAt : String
  headers : List String
  rows : List (List (Option String))
  deriving Repr, DecidableEq

/-- Structure `TimetableRow` from the source: one normalized schedule entry. -/
structure TimetableRow where
  day : String
  time : String
  division : String
  classBatch : String
  courseName : String
  faculty : String
  venue : String
  deriving Repr, DecidableEq

/-- Reads cell `i` of a raw row: an absent or undefined cell is the empty
string, as in the source's `row[i] || ''`. -/
def cellAt (row : List (Option String)) (i : Nat) : String :=
  ((row.get? i).getD none).getD ""

/-- Removes every occurrence of the decorative marker `**`, scanning left
to right without overlap, as JavaScript's `.replace(/\*\*/g, '')` does. -/
def stripStars : List Char → List Char
  | [] => []
  | '*' :: '*' :: rest => stripStars rest
  | c :: rest => c :: stripStars rest

/-- Drops leading whitespace characters. -/
def dropLeadingWs : List Char → List Char
  | [] => []
  | c :: rest => if c.isWhitespace then dropLeadingWs rest else c :: rest

/-- Trims whitespace from both ends, as JavaScript's `.trim()` does. -/
def trimChars (l : List Char) : List Char :=
  (dropLeadingWs (dropLeadingWs l).reverse).reverse

/-- JavaScript's `s.trim()` on a Lean string. -/
def jsTrim (s : String) : String :=
  String.mk (trimChars s.data)

/-- The per-row body of the `map` inside `parseSelectedTimetable`
(lines 145-157): clean the day cell by removing every `**` and trimming,
and read the remaining cells positionally. -/
def parseRow (row : List (Option String)) : TimetableRow :=
  let cleanDay := String.mk (trimChars (stripStars (cellAt row 0).data))
  { day := cleanDay
    time := cellAt row 1
    division := ""
    classBatch := cellAt row 2
    courseName := cellAt row 3
    faculty := cellAt row 4
    venue := cellAt row 5 }

/-- The predicate of the `filter` inside `parseSelectedTimetable`
(lines 158-167): drop lunch entries and empty entries. -/
def keepRow (row : TimetableRow) : Bool :=
  row.courseName != "" &&
  row.courseName != "LUNCH" &&
  jsTrim row.courseName != "" &&
  row.day != "" &&
  row.day != "ALL" &&
  row.time != "1:00-2:00"

/-- Function `parseSelectedTimetable` (lines 142-168): absent selection yields `[]`;
otherwise map `parseRow` over the raw rows and filter with `keepRow`. -/
def parseSelectedTimetable (selectedTimetable : Option StoredTimetable) :
    List TimetableRow :=
  match selectedTimetable with
  | none => []
  | some t => (t.rows.map parseRow).filter keepRow

/-- The parsed (pre-filter) entry sequence of a record, for stating
filter properties. -/
def parsedEntries (t : StoredTimetable) : List TimetableRow :=
  t.rows.map parseRow

/-- Constant `days` (line 189). -/
def days : List String :=
  ["Monday", "Tuesday", "Wednesday", "Thursday", "Friday"]

/-- Constant `timeSlots` (lines 190-193). -/
def timeSlots : List String :=
  ["9:00-10:00", "10:00-11:00", "11:00-12:00", "12:00-1:00",
   "2:00-3:00", "3:00-4:00", "4:00-5:00"]

/-! ## Grouping (`groupTimetableByDayAndTime`, lines 172-186)

The source builds a nested object `grouped[day][time] = TimetableRow[]`,
creating the key on first sight and pushing each row onto its group. The
objects are modelled as association lists in insertion order. -/

/-- Pushes a row onto the group for time key `t` inside one day's inner
object: existing key gets the row appended, a missing key is created
holding just that row (lines 179-182). -/
def pushTime (inner : List (String × List TimetableRow)) (t : String)
    (r : TimetableRow) : List (String × List TimetableRow) :=
  match inner with
  | [] => [(t, [r])]
  | (t', g) :: rest =>
    if t' = t then (t', g ++ [r]) :: rest else (t', g) :: pushTime rest t r

/-- Pushes a row onto the nested grouping object: a missing day key is
created (line 176-178), then the row is pushed under its time key. -/
def pushDay (grouped : List (String × List (String × List TimetableRow)))
    (r : TimetableRow) : List (String × List (String × List TimetableRow)) :=
  match grouped with
  | [] => [(r.day, [(r.time, [r])])]
  | (d', inner) :: rest =>
    if d' = r.day then (d', pushTime inner r.time r) :: rest
    else (d', inner) :: pushDay rest r

/-- Function `groupTimetableByDayAndTime` (lines 172-186): fold the rows into the
nested day/time grouping object, in source order. -/
def groupTimetableByDayAndTime (timetableData : List TimetableRow) :
    List (String × List (String × List TimetableRow)) :=
  timetableData.foldl pushDay []

/-- Key lookup in an association list modelling a JavaScript object. -/
def lookupKey {α : Type} (l : List (String × α)) (k : String) : Option α :=
  match l with
  | [] => none
  | (k', v) :: rest => if k' = k then some v else lookupKey rest k

/-- Reads `grouped[day][time]`: `none` when either key is absent. -/
def gridLookup (grouped : List (String × List (String × List TimetableRow)))
    (d t : String) : Option (List TimetableRow) :=
  (lookupKey grouped d).bind (fun inner => lookupKey inner t)

/-! ## Grid-cell rendering (lines 401-546)

For each `(day, time)` of the canonical cross-product the renderer
computes `daySlots`, then renders a forced lunch cell at `12:00-1:00`, a
free-period cell when `daySlots` is empty, and otherwise an occupied cell
showing `daySlots[0]` with a `+N more` badge and a dialog listing all of
`daySlots`. -/

/-- The tri-state result of rendering one grid cell. -/
inductive CellState where
  | lunch
  | free
  | occupied (daySlots : List TimetableRow)
  deriving Repr, DecidableEq

/-- Computation `daySlots` (lines 416-418): all filtered entries at this day and time. -/
def daySlotsAt (timetableData : List TimetableRow) (day time : String) :
    List TimetableRow :=
  timetableData.filter (fun row => row.day == day && row.time == time)

/-- The cell-state decision of the renderer (lines 420-443): lunch is a
forced override at `12:00-1:00`, an empty `daySlots` is a free period,
otherwise the cell is occupied by `daySlots`. -/
def renderCell (timetableData : List TimetableRow) (day time : String) :
    CellState :=
  let daySlots := daySlotsAt timetableData day time
  if time == "12:00-1:00" then .lunch
  else if daySlots.length == 0 then .free
  else .occupied daySlots

/-- The displayed primary entry, `mainSlot = daySlots[0]` (line 441). -/
def mainSlot : CellState → Option TimetableRow
  | .occupied daySlots => daySlots.head?
  | _ => none

/-- The overflow badge count, `daySlots.length - 1` (line 471); rendered
only when `daySlots.length > 1` (line 469). -/
def overflowCount : CellState → Nat
  | .occupied daySlots => daySlots.length - 1
  | _ => 0

/-- The entries listed by the detail dialog (lines 526-540): all of
`daySlots`. -/
def detailSlots : CellState → List TimetableRow
  | .occupied daySlots => daySlots
  | _ => []

/-! ## Loading (`loadTimetables`, lines 82-118)

The two state fields the handler writes are `timetables` and
`selectedTimetable`. The fetch outcome is a success carrying the record
list, an API-level failure (`result.success === false`, which only shows
a toast), or a thrown error caught by the `catch` (also only a toast). -/

/-- The component state touched by `loadTimetables`. -/
structure ViewState where
  timetables : List StoredTimetable
  selectedTimetable : Option StoredTimetable
  deriving Repr, DecidableEq

/-- The outcome of `DataImportService.getStoredTimetables`. -/
inductive FetchResult where
  | success (data : List StoredTimetable)
  | failure (error : String)
  | thrown
  deriving Repr, DecidableEq

/-- Handler `loadTimetables` (lines 82-118) as a transition on the state it
writes: on success the record list is stored and the first record (or
`null` when empty) becomes selected (lines 95-101); on an API failure or
a thrown error only a toast is shown and the state is untouched. -/
def loadTimetables (s : ViewState) (r : FetchResult) : ViewState :=
  match r with
  | .success data =>
    { timetables := data
      selectedTimetable :=
        if h : 0 < data.length then some (data.get ⟨0, h⟩) else none }
  | .failure _ => s
  | .thrown => s

/-! ## Query-parameter handlers (lines 121-139)

`URLSearchParams` is modelled as an ordered list of key/value pairs.
`set` overwrites the first matching key in place and deletes later
duplicates, appending at the end when the key is absent; `delete` removes
every pair with the key. -/

/-- Method `URLSearchParams.delete k`. -/
def deleteParam (params : List (String × String)) (k : String) :
    List (String × String) :=
  params.filter (fun p => p.1 ≠ k)

/-- Method `URLSearchParams.set k v`: replace the first occurrence of `k` in
place (dropping later duplicates), or append `(k, v)` when absent. -/
def setParam (params : List (String × String)) (k v : String) :
    List (String × String) :=
  match params with
  | [] => [(k, v)]
  | (k', v') :: rest =>
    if k' = k then (k, v) :: deleteParam rest k
    else (k', v') :: setParam rest k v

/-- Handler `handleBranchChange` (lines 121-129): "all" deletes the `branch`
key, any other value sets it. -/
def handleBranchChange (params : List (String × String))
    (newBranch : String) : List (String × String) :=
  if newBranch = "all" then deleteParam params "branch"
  else setParam params "branch" newBranch

/-- Handler `handleDivisionChange` (lines 131-139): "all" deletes the `division`
key, any other value sets it. -/
def handleDivisionChange (params : List (String × String))
    (newDivision : String) : List (String × String) :=
  if newDivision = "all" then deleteParam params "division"
  else setParam params "division" newDivision

/-! ## Sample data used by witnesses and counterexamples -/

/-- A normal parsed Monday class entry. -/
def mondayRow : TimetableRow :=
  { day := "Monday", time := "9:00-10:00", division := "",
    classBatch := "B1", courseName := "Data Structures",
    faculty := "Dr. Rao", venue := "Room 101" }

/-- First of two entries colliding at (Monday, 10:00-11:00). -/
def mondayTenRow1 : TimetableRow :=
  { day := "Monday", time := "10:00-11:00", division := "",
    classBatch := "B1", courseName := "Algorithms",
    faculty := "Dr. Rao", venue := "Room 101" }

/-- Second of two entries colliding at (Monday, 10:00-11:00). -/
def mondayTenRow2 : TimetableRow :=
  { day := "Monday", time := "10:00-11:00", division := "",
    classBatch := "B2", courseName := "Operating Systems",
    faculty := "Dr. Iyer", venue := "Room 102" }

/-- A stored record with one ordinary Monday row. -/
def sampleRecord : StoredTimetable :=
  { filename := "tt_cs_a.json", branch := "CS", division := "A",
    year := "2", generatedAt := "2024-01-01",
    headers := ["Day", "Time", "Batch", "Course", "Faculty", "Venue"],
    rows := [[some "**Monday**", some "9:00-10:00", some "B1",
      some "Data Structures", some "Dr. Rao", some "Room 101"]] }

/-- A stored record with a class row sitting at the rendered lunch slot
`12:00-1:00`. -/
def lunchSlotRecord : StoredTimetable :=
  { filename := "tt_lunch.json", branch := "CS", division := "A",
    year := "2", generatedAt := "2024-01-01",
    headers := ["Day", "Time", "Batch", "Course", "Faculty", "Venue"],
    rows := [[some "Monday", some "12:00-1:00", some "B1",
      some "Mathematics", some "Dr. Rao", some "Room 101"]] }

/-- A stored record with a class row on a day outside the five rendered
weekdays. -/
def saturdayRecord : StoredTimetable :=
  { filename := "tt_sat.json", branch := "CS", division := "A",
    year := "2", generatedAt := "2024-01-01",
    headers := ["Day", "Time", "Batch", "Course", "Faculty", "Venue"],
    rows := [[some "Saturday", some "9:00-10:00", some "B1",
      some "Physics", some "Dr. Iyer", some "Room 202"]] }

/-- A stored record holding only the lunch marker row of the scenario. -/
def lunchMarkerRecord : StoredTimetable :=
  { filename := "tt_marker.json", branch := "CS", division := "A",
    year := "2", generatedAt := "2024-01-01",
    headers := ["Day", "Time", "Batch", "Course", "Faculty", "Venue"],
    rows := [[some "ALL", some "1:00-2:00", some "",
      some "LUNCH", some "", some ""]] }

/-! ## Helper lemmas -/

/-- Looking a time key up after `pushTime`: the pushed key gains `r` at
the end of its group (an absent key starts from the empty group), every
other key is untouched. -/
theorem lookup_pushTime (inner : List (String × List TimetableRow))
    (t : String) (r : TimetableRow) (t' : String) :
    lookupKey (pushTime inner t r) t' =
      if t' = t then some ((lookupKey inner t').getD [] ++ [r])
      else lookupKey inner t' := by
  induction inner with
  | nil =>
    by_cases h : t' = t
    · subst h
      simp [pushTime, lookupKey]
    · simp [pushTime, lookupKey, h, Ne.symm h]
  | cons p rest ih =>
    obtain ⟨tk, g⟩ := p
    by_cases h1 : tk = t
    · subst h1
      by_cases h2 : t' = tk
      · subst h2
        simp [pushTime, lookupKey]
      · simp [pushTime, lookupKey, h2, Ne.symm h2]
    · by_cases h2 : t' = tk
      · subst h2
        simp [pushTime, lookupKey, h1, Ne.symm h1]
      · simp [pushTime, lookupKey, h1, h2, Ne.symm h2, ih]

/-- Looking a `(day, time)` pair up after `pushDay`: the pushed pair
gains `r` at the end of its group, every other pair is untouched. -/
theorem gridLookup_pushDay
    (grouped : List (String × List (String × List TimetableRow)))
    (r : TimetableRow) (d t : String) :
    gridLookup (pushDay grouped r) d t =
      if d = r.day ∧ t = r.time then
        some (((gridLookup grouped d t).getD []) ++ [r])
      else gridLookup grouped d t := by
  induction grouped with
  | nil =>
    by_cases hd : d = r.day
    · subst hd
      by_cases ht : t = r.time
      · subst ht
        simp [pushDay, gridLookup, lookupKey]
      · simp [pushDay, gridLookup, lookupKey, ht, Ne.symm ht]
    · have hcond : ¬(d = r.day ∧ t = r.time) := fun h => hd h.1
      simp [pushDay, gridLookup, lookupKey, hd, Ne.symm hd, hcond]
  | cons p rest ih =>
    obtain ⟨dk, inner⟩ := p
    by_cases h1 : dk = r.day
    · subst h1
      by_cases h2 : d = r.day
      · subst h2
        by_cases h3 : t = r.time
        · subst h3
          simp [pushDay, gridLookup, lookupKey, lookup_pushTime]
        · simp [pushDay, gridLookup, lookupKey, lookup_pushTime, h3]
      · have hcond : ¬(d = r.day ∧ t = r.time) := fun h => h2 h.1
        simp [pushDay, gridLookup, lookupKey, h2, Ne.symm h2, hcond]
    · by_cases h2 : d = dk
      · subst h2
        have hcond : ¬(d = r.day ∧ t = r.time) := fun h => h1 h.1
        simp [pushDay, gridLookup, lookupKey, h1, hcond]
      · simp only [pushDay, if_neg h1]
        simp [gridLookup, lookupKey, Ne.symm h2] at ih ⊢
        exact ih

/-- Folding `pushDay` over a row list extends each `(day, time)` group by
exactly the rows matching that pair, in source order; a pair untouched by
both the accumulator and the rows stays absent. -/
theorem gridLookup_foldl (l : List TimetableRow)
    (acc : List (String × List (String × List TimetableRow)))
    (d t : String) :
    gridLookup (l.foldl pushDay acc) d t =
      if gridLookup acc d t = none ∧
          l.filter (fun r => r.day == d && r.time == t) = [] then none
      else some (((gridLookup acc d t).getD []) ++
        l.filter (fun r => r.day == d && r.time == t)) := by
  induction l generalizing acc with
  | nil =>
    cases h : gridLookup acc d t <;> simp [h]
  | cons r rest ih =>
    by_cases hp : r.day = d ∧ r.time = t
    · have hfilt : (r.day == d && r.time == t) = true := by
        simp [hp.1, hp.2]
      have hpush : gridLookup (pushDay acc r) d t =
          some (((gridLookup acc d t).getD []) ++ [r]) := by
        rw [gridLookup_pushDay]
        simp [hp.1, hp.2]
      simp only [List.foldl_cons, ih (pushDay acc r), hpush,
        List.filter_cons, hfilt]
      cases h : gridLookup acc d t <;> simp [h]
    · have hfilt : (r.day == d && r.time == t) = false := by
        by_cases h1 : r.day = d
        · by_cases h2 : r.time = t
          · exact absurd ⟨h1, h2⟩ hp
          · simp [h1, h2]
        · simp [h1]
      have hpush : gridLookup (pushDay acc r) d t = gridLookup acc d t := by
        rw [gridLookup_pushDay]
        simp only [ite_eq_right_iff]
        intro h
        exact absurd ⟨h.1.symm, h.2.symm⟩ hp
      simp only [List.foldl_cons, ih (pushDay acc r), hpush,
        List.filter_cons, hfilt]
      simp

/-- Deleting one key leaves the entries of every other key untouched. -/
theorem filter_deleteParam (l : List (String × String)) (k kd : String)
    (h : k ≠ kd) :
    (deleteParam l kd).filter (fun p => p.1 == k) =
      l.filter (fun p => p.1 == k) := by
  induction l with
  | nil => rfl
  | cons q rest ih =>
    by_cases h1 : q.1 = kd
    · have hk : (q.1 == k) = false := by
        simp only [beq_eq_false_iff_ne]
        exact fun hh => h (hh ▸ h1)
      simp [deleteParam, List.filter_cons, h1, hk, h, Ne.symm h] at ih ⊢
      exact ih
    · simp [deleteParam, List.filter_cons, h1, h, Ne.symm h] at ih ⊢
      by_cases h2 : q.1 = k <;> simp [h2, ih, h, Ne.symm h]

/-- Setting one key leaves the entries of every other key untouched. -/
theorem filter_setParam (l : List (String × String)) (k kd v : String)
    (h : k ≠ kd) :
    (setParam l kd v).filter (fun p => p.1 == k) =
      l.filter (fun p => p.1 == k) := by
  induction l with
  | nil => simp [setParam, List.filter_cons, Ne.symm h]
  | cons q rest ih =>
    obtain ⟨qk, qv⟩ := q
    by_cases h1 : qk = kd
    · subst h1
      have hk : (qk == k) = false := by
        simp only [beq_eq_false_iff_ne]
        exact fun hh => h hh.symm
      simp [setParam, List.filter_cons, Ne.symm h, hk,
        filter_deleteParam rest k qk h]
    · by_cases h2 : qk = k <;>
        simp [setParam, List.filter_cons, h1, h2, ih, h, Ne.symm h]

/-- Setting an absent key appends it at the end. -/
theorem setParam_absent (l : List (String × String)) (k v : String)
    (h : ∀ p ∈ l, p.1 ≠ k) :
    setParam l k v = l ++ [(k, v)] := by
  induction l with
  | nil => rfl
  | cons q rest ih =>
    have hq : q.1 ≠ k := h q (by simp)
    obtain ⟨qk, qv⟩ := q
    simp only [setParam, if_neg hq, List.cons_append, List.cons.injEq,
      true_and]
    exact ih (fun p hp => h p (by simp [hp]))

/-- Deleting an absent key is the identity. -/
theorem deleteParam_absent (l : List (String × String)) (k : String)
    (h : ∀ p ∈ l, p.1 ≠ k) :
    deleteParam l k = l := by
  rw [deleteParam, List.filter_eq_self]
  intro p hp
  simp [h p hp]

/-! ## Claim theorems -/

/-- C1 (counterexample): the claim that the filter pass never returns an
entry whose time is the lunch slot `12:00-1:00` is false: the source's
filter excludes the literal `1:00-2:00` (line 166), so a class row at
`12:00-1:00` survives `parseSelectedTimetable`. -/
theorem entryFilter_returns_lunch_slot_time_entry :
    ∃ e ∈ parseSelectedTimetable (some lunchSlotRecord),
      e.time = "12:00-1:00" := by
  refine ⟨parseRow [some "Monday", some "12:00-1:00", some "B1",
    some "Mathematics", some "Dr. Rao", some "Room 101"], by decide, by decide⟩

/-- C1 (amended): for every selection, no entry returned by the filter
pass of `parseSelectedTimetable` has time equal to `1:00-2:00`, the
lunch-time literal the filter actually excludes (line 166). -/
theorem entryFilter_excludes_time_one_to_two
    (st : Option StoredTimetable) (e : TimetableRow)
    (h : e ∈ parseSelectedTimetable st) : e.time ≠ "1:00-2:00" := by
  match st with
  | none => simp [parseSelectedTimetable] at h
  | some t =>
    simp only [parseSelectedTimetable] at h
    have hk := List.of_mem_filter h
    simp only [keepRow, Bool.and_eq_true, bne_iff_ne, ne_eq] at hk
    exact hk.2

/-- C1 witness: the amended theorem applied to a concrete record whose
single row survives the filter. -/
theorem entryFilter_excludes_time_one_to_two_witness :
    mondayRow ∈ parseSelectedTimetable (some sampleRecord) ∧
    mondayRow.time ≠ "1:00-2:00" :=
  ⟨by decide,
   entryFilter_excludes_time_one_to_two (some sampleRecord) mondayRow
     (by decide)⟩

/-- C2 (counterexample): the claim that every entry surviving the filter
pass has a day among the five weekday labels is false: the filter only
rejects an empty day and the `ALL` sentinel (lines 163-165), so a row
with day `Saturday` survives. -/
theorem entryFilter_passes_nonweekday_day :
    ∃ e ∈ parseSelectedTimetable (some saturdayRecord), e.day ∉ days := by
  refine ⟨parseRow [some "Saturday", some "9:00-10:00", some "B1",
    some "Physics", some "Dr. Iyer", some "Room 202"], by decide, by decide⟩

/-- C2 (amended): every entry surviving the filter pass of
`parseSelectedTimetable` has a non-empty day different from the `ALL`
sentinel (the two day conditions the filter actually imposes). -/
theorem entryFilter_day_nonempty_not_all
    (st : Option StoredTimetable) (e : TimetableRow)
    (h : e ∈ parseSelectedTimetable st) : e.day ≠ "" ∧ e.day ≠ "ALL" := by
  match st with
  | none => simp [parseSelectedTimetable] at h
  | some t =>
    simp only [parseSelectedTimetable] at h
    have hk := List.of_mem_filter h
    simp only [keepRow, Bool.and_eq_true, bne_iff_ne, ne_eq] at hk
    exact ⟨hk.1.1.2, hk.1.2⟩

/-- C2 witness: the amended theorem applied to a concrete record whose
single row survives the filter. -/
theorem entryFilter_day_nonempty_not_all_witness :
    mondayRow ∈ parseSelectedTimetable (some sampleRecord) ∧
    mondayRow.day ≠ "" ∧ mondayRow.day ≠ "ALL" :=
  ⟨by decide,
   entryFilter_day_nonempty_not_all (some sampleRecord) mondayRow
     (by decide)⟩

/-- C3: the rendered cell at time `12:00-1:00` is the forced lunch state
on every day and for every filtered entry sequence — including sequences
still holding an entry at that slot — so it is never an occupied class
cell and never a free period (lines 420-428 run before the empty and
occupied branches). -/
theorem lunch_cell_forced_override (timetableData : List TimetableRow)
    (day : String) :
    renderCell timetableData day "12:00-1:00" = CellState.lunch := by
  simp [renderCell]

/-- C4: `parseRow` is total (a Lean function on every raw row, any cell
absent or undefined): each missing or undefined cell yields the empty
string in the corresponding field, and the scenario row
`["**Monday**", "9:00-10:00", "B1", "Data Structures", "Dr. Rao",
"Room 101"]` parses to the expected entry, its day cleaned of every `**`
marker and trimmed. -/
theorem parseRow_total_and_cleaned :
    (∀ row : List (Option String),
      ((row.get? 0).getD none = none → (parseRow row).day = "") ∧
      ((row.get? 1).getD none = none → (parseRow row).time = "") ∧
      ((row.get? 2).getD none = none → (parseRow row).classBatch = "") ∧
      ((row.get? 3).getD none = none → (parseRow row).courseName = "") ∧
      ((row.get? 4).getD none = none → (parseRow row).faculty = "") ∧
      ((row.get? 5).getD none = none → (parseRow row).venue = "")) ∧
    parseRow [some "**Monday**", some "9:00-10:00", some "B1",
      some "Data Structures", some "Dr. Rao", some "Room 101"] =
      { day := "Monday", time := "9:00-10:00", division := "",
        classBatch := "B1", courseName := "Data Structures",
        faculty := "Dr. Rao", venue := "Room 101" } := by
  constructor
  · intro row
    refine ⟨?_, ?_, ?_, ?_, ?_, ?_⟩ <;> intro h <;>
      simp only [parseRow, cellAt, h] <;> rfl
  · decide

/-- C4 witness: the totality clauses applied to the empty raw row, whose
six cells are all missing. -/
theorem parseRow_total_and_cleaned_witness :
    (parseRow ([] : List (Option String))).day = "" ∧
    (parseRow ([] : List (Option String))).time = "" ∧
    (parseRow ([] : List (Option String))).classBatch = "" ∧
    (parseRow ([] : List (Option String))).courseName = "" ∧
    (parseRow ([] : List (Option String))).faculty = "" ∧
    (parseRow ([] : List (Option String))).venue = "" := by
  have h := parseRow_total_and_cleaned.1 []
  exact ⟨h.1 (by decide), h.2.1 (by decide), h.2.2.1 (by decide),
    h.2.2.2.1 (by decide), h.2.2.2.2.1 (by decide), h.2.2.2.2.2 (by decide)⟩

/-- C7: after `loadTimetables` completes, a successful fetch stores the
record list and selects its first record (or clears the selection to the
explicit empty state when the list is empty, `head?` covering both), an
API failure leaves the state unchanged, and a thrown error leaves the
state unchanged — prior data is retained on failure, never cleared. -/
theorem loadTimetables_first_or_clear_or_retain (s : ViewState)
    (data : List StoredTimetable) (err : String) :
    loadTimetables s (FetchResult.success data) =
      { timetables := data, selectedTimetable := data.head? } ∧
    loadTimetables s (FetchResult.failure err) = s ∧
    loadTimetables s FetchResult.thrown = s := by
  refine ⟨?_, rfl, rfl⟩
  cases data with
  | nil => rfl
  | cons a as => simp [loadTimetables]

/-- C8: the filter pass is pure and order-preserving: its output is a
subsequence of the parsed entry sequence, membership in the output is
exactly membership among parsed entries plus passing the filter
conditions (no reordering, duplication, or deduplication), and the
scenario row `["ALL", "1:00-2:00", "", "LUNCH", "", ""]` is excluded
entirely. -/
theorem entryFilter_subsequence_scenario (t : StoredTimetable) :
    (parseSelectedTimetable (some t)).Sublist (parsedEntries t) ∧
    (∀ e : TimetableRow, e ∈ parseSelectedTimetable (some t) ↔
      e ∈ parsedEntries t ∧ keepRow e = true) ∧
    keepRow (parseRow [some "ALL", some "1:00-2:00", some "",
      some "LUNCH", some "", some ""]) = false := by
  refine ⟨List.filter_sublist _, ?_, by decide⟩
  intro e
  simp [parseSelectedTimetable, parsedEntries, List.mem_filter]

/-- C8 witness: the theorem applied to the record holding exactly the
scenario lunch-marker row, whose parse is excluded entirely. -/
theorem entryFilter_subsequence_scenario_witness :
    (parseSelectedTimetable (some lunchMarkerRecord)).Sublist
      (parsedEntries lunchMarkerRecord) ∧
    (∀ e : TimetableRow,
      e ∈ parseSelectedTimetable (some lunchMarkerRecord) ↔
      e ∈ parsedEntries lunchMarkerRecord ∧ keepRow e = true) ∧
    keepRow (parseRow [some "ALL", some "1:00-2:00", some "",
      some "LUNCH", some "", some ""]) = false :=
  entryFilter_subsequence_scenario lunchMarkerRecord

/-- C5: `groupTimetableByDayAndTime` groups by exact `(day, time)` string
equality: any group found under keys `(d, t)` is exactly the subsequence
of input entries whose day is `d` and time is `t`, in the original order
(so no two distinct cells merge entries of different pairs), it is
non-empty, each of its entries matches the keys, and it is a subsequence
of the input. -/
theorem grouping_exact_ordered_nonempty (l : List TimetableRow)
    (d t : String) (g : List TimetableRow)
    (h : gridLookup (groupTimetableByDayAndTime l) d t = some g) :
    g = l.filter (fun r => r.day == d && r.time == t) ∧
    g ≠ [] ∧
    (∀ e ∈ g, e.day = d ∧ e.time = t) ∧
    g.Sublist l := by
  have key := gridLookup_foldl l [] d t
  have hnone : gridLookup [] d t = none := rfl
  simp only [groupTimetableByDayAndTime] at h
  rw [key, hnone] at h
  by_cases hf : l.filter (fun r => r.day == d && r.time == t) = []
  · simp [hf] at h
  · simp only [hf, and_false, if_false, List.getD] at h
    simp only [Option.getD_none, List.nil_append, Option.some.injEq] at h
    subst h
    refine ⟨rfl, hf, ?_, List.filter_sublist l⟩
    intro e he
    have hm := List.of_mem_filter he
    simp only [Bool.and_eq_true, beq_iff_eq] at hm
    exact hm

/-- C5 witness: the theorem applied to a one-entry list, whose group at
(Monday, 9:00-10:00) is found and is that single entry. -/
theorem grouping_exact_ordered_nonempty_witness :
    [mondayRow] = List.filter
      (fun r => r.day == "Monday" && r.time == "9:00-10:00") [mondayRow] ∧
    [mondayRow] ≠ [] ∧
    (∀ e ∈ [mondayRow], e.day = "Monday" ∧ e.time = "9:00-10:00") ∧
    List.Sublist [mondayRow] [mondayRow] :=
  grouping_exact_ordered_nonempty [mondayRow] "Monday" "9:00-10:00"
    [mondayRow] (by decide)

/-- C6: a non-lunch cell holding more than one matching entry displays as
primary the first matching entry in source order (`find?`), shows an
overflow count of one fewer than the number of matching entries, and its
detail view lists exactly the entries matching the cell's day and time —
none is dropped. -/
theorem cell_primary_overflow_retrievable (data : List TimetableRow)
    (d t : String) (ht : t ≠ "12:00-1:00")
    (hN : 1 < (daySlotsAt data d t).length) :
    renderCell data d t = CellState.occupied (daySlotsAt data d t) ∧
    mainSlot (renderCell data d t) =
      data.find? (fun r => r.day == d && r.time == t) ∧
    overflowCount (renderCell data d t) =
      (daySlotsAt data d t).length - 1 ∧
    detailSlots (renderCell data d t) = daySlotsAt data d t ∧
    (∀ e : TimetableRow, e ∈ detailSlots (renderCell data d t) ↔
      e ∈ data ∧ e.day = d ∧ e.time = t) := by
  have hne : ¬(((daySlotsAt data d t).length == 0) = true) := by
    simp only [beq_iff_eq]
    omega
  have hcell : renderCell data d t =
      CellState.occupied (daySlotsAt data d t) := by
    simp only [renderCell]
    rw [if_neg (by simp [ht]), if_neg hne]
  refine ⟨hcell, ?_, ?_, ?_, ?_⟩
  · rw [hcell]
    simp only [mainSlot, daySlotsAt]
    exact List.filter_head? _ _
  · rw [hcell]
    rfl
  · rw [hcell]
    rfl
  · intro e
    rw [hcell]
    simp only [detailSlots, daySlotsAt, List.mem_filter,
      Bool.and_eq_true, beq_iff_eq]

/-- C6 witness: the two scenario entries colliding at
(Monday, 10:00-11:00) give the first as primary, overflow count 1, and
both retrievable from the detail view. -/
theorem cell_primary_overflow_retrievable_witness :
    renderCell [mondayTenRow1, mondayTenRow2] "Monday" "10:00-11:00" =
      CellState.occupied
        (daySlotsAt [mondayTenRow1, mondayTenRow2] "Monday" "10:00-11:00") ∧
    mainSlot (renderCell [mondayTenRow1, mondayTenRow2] "Monday"
        "10:00-11:00") =
      List.find? (fun r => r.day == "Monday" && r.time == "10:00-11:00")
        [mondayTenRow1, mondayTenRow2] ∧
    overflowCount (renderCell [mondayTenRow1, mondayTenRow2] "Monday"
        "10:00-11:00") =
      (daySlotsAt [mondayTenRow1, mondayTenRow2] "Monday"
        "10:00-11:00").length - 1 ∧
    detailSlots (renderCell [mondayTenRow1, mondayTenRow2] "Monday"
        "10:00-11:00") =
      daySlotsAt [mondayTenRow1, mondayTenRow2] "Monday" "10:00-11:00" ∧
    (∀ e : TimetableRow,
      e ∈ detailSlots (renderCell [mondayTenRow1, mondayTenRow2] "Monday"
        "10:00-11:00") ↔
      e ∈ [mondayTenRow1, mondayTenRow2] ∧
        e.day = "Monday" ∧ e.time = "10:00-11:00") :=
  cell_primary_overflow_retrievable [mondayTenRow1, mondayTenRow2]
    "Monday" "10:00-11:00" (by decide) (by decide)

/-- C9: starting from a query with no `branch` key, applying
`handleBranchChange` with a concrete branch and then with the sentinel
`"all"` returns exactly the initial query — the `branch` key is removed
entirely, not stored as the literal `"all"` — and the result again has
no `branch` key. -/
theorem branch_filter_roundtrip (params : List (String × String))
    (b : String) (hb : b ≠ "all")
    (hnb : ∀ p ∈ params, p.1 ≠ "branch") :
    handleBranchChange (handleBranchChange params b) "all" = params ∧
    (∀ q ∈ handleBranchChange (handleBranchChange params b) "all",
      q.1 ≠ "branch") := by
  have hstep : handleBranchChange (handleBranchChange params b) "all" =
      params := by
    have e1 : handleBranchChange params b = setParam params "branch" b := by
      simp [handleBranchChange, hb]
    have e2 : handleBranchChange (setParam params "branch" b) "all" =
        deleteParam (setParam params "branch" b) "branch" := by
      simp [handleBranchChange]
    rw [e1, e2, setParam_absent params "branch" b hnb, deleteParam,
      List.filter_append]
    have h1 : List.filter (fun p => decide (p.1 ≠ "branch")) params =
        params := deleteParam_absent params "branch" hnb
    have h2 : List.filter (fun p => decide (p.1 ≠ "branch"))
        [("branch", b)] = [] := by simp
    rw [h1, h2, List.append_nil]
  exact ⟨hstep, fun q hq => hnb q (hstep ▸ hq)⟩

/-- C9 witness: the round trip on the concrete query
`division=A` with branch value `CS`. -/
theorem branch_filter_roundtrip_witness :
    handleBranchChange (handleBranchChange [("division", "A")] "CS")
      "all" = [("division", "A")] ∧
    (∀ q ∈ handleBranchChange (handleBranchChange [("division", "A")]
        "CS") "all", q.1 ≠ "branch") :=
  branch_filter_roundtrip [("division", "A")] "CS" (by decide)
    (by decide)

/-- C10: `handleBranchChange` modifies only the `branch` key — for any
other key, the entries under that key (their values, order, and
multiplicity) are unchanged — and symmetrically `handleDivisionChange`
modifies only the `division` key. -/
theorem handlers_frame (params : List (String × String)) (v k : String) :
    (k ≠ "branch" →
      (handleBranchChange params v).filter (fun p => p.1 == k) =
        params.filter (fun p => p.1 == k)) ∧
    (k ≠ "division" →
      (handleDivisionChange params v).filter (fun p => p.1 == k) =
        params.filter (fun p => p.1 == k)) := by
  constructor
  · intro hk
    by_cases hv : v = "all"
    · simp only [handleBranchChange, if_pos hv]
      exact filter_deleteParam params k "branch" hk
    · simp only [handleBranchChange, if_neg hv]
      exact filter_setParam params k "branch" v hk
  · intro hk
    by_cases hv : v = "all"
    · simp only [handleDivisionChange, if_pos hv]
      exact filter_deleteParam params k "division" hk
    · simp only [handleDivisionChange, if_neg hv]
      exact filter_setParam params k "division" v hk

/-- C10 witness: changing branch to `EE` on a concrete query leaves the
`division` entries unchanged, and symmetrically for division and
`branch`. -/
theorem handlers_frame_witness :
    (handleBranchChange [("branch", "CS"), ("division", "A")]
        "EE").filter (fun p => p.1 == "division") =
      [("branch", "CS"), ("division", "A")].filter
        (fun p => p.1 == "division") ∧
    (handleDivisionChange [("branch", "CS"), ("division", "A")]
        "EE").filter (fun p => p.1 == "branch") =
      [("branch", "CS"), ("division", "A")].filter
        (fun p => p.1 == "branch") :=
  ⟨(handlers_frame [("branch", "CS"), ("division", "A")] "EE"
      "division").1 (by decide),
   (handlers_frame [("branch", "CS"), ("division", "A")] "EE"
      "branch").2 (by decide)⟩

end TimetableView
